import Mathlib

/-!
# Evidence Aggregation & Risk Scoring Engine — verification development

A shallow embedding of the KB-infra supplier-risk engine:

* `src/services/context_provider.py` — evidence bundling and the
  SHA-256 evidence hash over a canonical JSON serialization;
* `src/services/llm_reviewer.py` — weighted dimension scoring, grade
  classification, pydantic-style validation, caching of reviews;
* `src/dagster_jobs/ops/risk_score.py` — the rule-based tone/recency
  document scorer;
* `src/app/routes/supplier_risk.py` — the risk-profile HTTP route.

Python strings are modelled as `List Char`; machine floats are modelled by
rationals together with an explicit IEEE-754 binary64 rounding function
(`fl`) where the double-precision result matters; bytes are `Nat` below
256; 32-bit words are `Nat` reduced modulo 2^32; fallible code returns
`Except`.
-/

set_option maxRecDepth 4000

namespace KB

/-- Python strings are modelled as lists of characters. -/
abbrev Str := List Char

/-! ## SHA-256 (`hashlib.sha256(...).hexdigest()`) -/

/-- Right rotation of a 32-bit word. -/
def rotr32 (x k : Nat) : Nat :=
  ((x >>> k) ||| (x <<< (32 - k))) &&& 4294967295

/-- The 64 SHA-256 round constants. -/
def sha256K : List Nat :=
  [1116352408, 1899447441, 3049323471, 3921009573, 961987163, 1508970993,
   2453635748, 2870763221, 3624381080, 310598401, 607225278, 1426881987,
   1925078388, 2162078206, 2614888103, 3248222580, 3835390401, 4022224774,
   264347078, 604807628, 770255983, 1249150122, 1555081692, 1996064986,
   2554220882, 2821834349, 2952996808, 3210313671, 3336571891, 3584528711,
   113926993, 338241895, 666307205, 773529912, 1294757372, 1396182291,
   1695183700, 1986661051, 2177026350, 2456956037, 2730485921, 2820302411,
   3259730800, 3345764771, 3516065817, 3600352804, 4094571909, 275423344,
   430227734, 506948616, 659060556, 883997877, 958139571, 1322822218,
   1537002063, 1747873779, 1955562222, 2024104815, 2227730452, 2361852424,
   2428436474, 2756734187, 3204031479, 3329325298]

/-- The SHA-256 initial hash state. -/
def sha256H0 : List Nat :=
  [1779033703, 3144134277, 1013904242, 2773480762,
   1359893119, 2600822924, 528734635, 1541459225]

/-- Group a byte list into big-endian 32-bit words. -/
def bytesToWords : List Nat → List Nat
  | a :: b :: c :: d :: rest => (((a * 256 + b) * 256 + c) * 256 + d) :: bytesToWords rest
  | _ => []

def sigma0 (x : Nat) : Nat := rotr32 x 7 ^^^ rotr32 x 18 ^^^ (x >>> 3)

def sigma1 (x : Nat) : Nat := rotr32 x 17 ^^^ rotr32 x 19 ^^^ (x >>> 10)

/-- Extend the 16 message words to the 64-entry message schedule. -/
def extendSchedule : Nat → List Nat → List Nat
  | 0, ws => ws
  | fuel + 1, ws =>
    let n := ws.length
    let w := (ws.getD (n - 16) 0 + sigma0 (ws.getD (n - 15) 0) +
              ws.getD (n - 7) 0 + sigma1 (ws.getD (n - 2) 0)) % 4294967296
    extendSchedule fuel (ws ++ [w])

/-- One round of the SHA-256 compression function on state `[a,b,c,d,e,f,g,h]`. -/
def sha256Round (st : List Nat) (kw : Nat × Nat) : List Nat :=
  match st with
  | [a, b, c, d, e, f, g, h] =>
    let S1 := rotr32 e 6 ^^^ rotr32 e 11 ^^^ rotr32 e 25
    let ch := (e &&& f) ^^^ ((e ^^^ 4294967295) &&& g)
    let temp1 := (h + S1 + ch + kw.1 + kw.2) % 4294967296
    let S0 := rotr32 a 2 ^^^ rotr32 a 13 ^^^ rotr32 a 22
    let maj := (a &&& b) ^^^ (a &&& c) ^^^ (b &&& c)
    let temp2 := (S0 + maj) % 4294967296
    [(temp1 + temp2) % 4294967296, a, b, c, (d + temp1) % 4294967296, e, f, g]
  | _ => st

/-- Process one 64-byte block, updating the 8-word hash state. -/
def sha256Block (st : List Nat) (block : List Nat) : List Nat :=
  let ws := extendSchedule 48 (bytesToWords block)
  let st' := (sha256K.zip ws).foldl sha256Round st
  (st.zip st').map (fun p => (p.1 + p.2) % 4294967296)

/-- Split a byte list into 64-byte chunks (fuel-driven). -/
def chunks64 : Nat → List Nat → List (List Nat)
  | 0, _ => []
  | _, [] => []
  | fuel + 1, l => l.take 64 :: chunks64 fuel (l.drop 64)

/-- Big-endian bytes of a natural number, fixed width. -/
def beBytes (width n : Nat) : List Nat :=
  ((List.range width).reverse).map fun i => (n >>> (8 * i)) &&& 255

/-- SHA-256 padding: `128`, zeros to 56 mod 64, then the 64-bit bit length. -/
def sha256Pad (msg : List Nat) : List Nat :=
  let L := msg.length
  let zeros := (119 - L % 64) % 64
  msg ++ [128] ++ List.replicate zeros 0 ++ beBytes 8 (8 * L)

/-- The SHA-256 digest of a byte list, as 32 bytes. -/
def sha256 (msg : List Nat) : List Nat :=
  let padded := sha256Pad msg
  let st := (chunks64 (padded.length / 64 + 1) padded).foldl sha256Block sha256H0
  st.foldr (fun w acc => beBytes 4 w ++ acc) []

/-- One hexadecimal digit, lowercase. -/
def hexDigit (n : Nat) : Char := ("0123456789abcdef").data.getD n '0'

/-- Lowercase-hex rendering of a byte list. -/
def bytesToHex (bs : List Nat) : Str :=
  bs.foldr (fun b acc => hexDigit (b / 16) :: hexDigit (b % 16) :: acc) []

/-- UTF-8 bytes of an ASCII-only model string (codepoint = byte; the canonical
JSON serializations hashed below are ASCII-only by construction, since
`json.dumps` is used with its default `ensure_ascii=True`). -/
def asciiBytes (s : Str) : List Nat := s.map Char.toNat

/-- `hashlib.sha256(s.encode()).hexdigest()` for ASCII input. -/
def sha256HexOfAscii (s : Str) : Str := bytesToHex (sha256 (asciiBytes s))

/-! ## Python string helpers -/

/-- Decimal rendering of a natural number, as in Python string interpolation. -/
def natStr (n : Nat) : Str := (toString n).data

/-- Four lowercase hex digits (for `\uXXXX` escapes). -/
def hex4 (n : Nat) : Str :=
  [hexDigit (n / 4096 % 16), hexDigit (n / 256 % 16), hexDigit (n / 16 % 16), hexDigit (n % 16)]

/-- `str.title()` for one character, given whether the previous character was
alphabetic (ASCII model of Python's cased-character rule). -/
def pyTitleChar (prevAlpha : Bool) (c : Char) : Char :=
  if c.isAlpha then (if prevAlpha then c.toLower else c.toUpper) else c

/-- Helper for `pyTitle`, threading the previous-character-cased flag. -/
def pyTitleGo : Bool → Str → Str
  | _, [] => []
  | prev, c :: cs => pyTitleChar prev c :: pyTitleGo c.isAlpha cs

/-- Python `str.title()` (ASCII model): a letter is uppercased after a
non-letter and lowercased after a letter. -/
def pyTitle (s : Str) : Str := pyTitleGo false s

/-- `"\n".join(lines)` — joins with a separator, empty for the empty list. -/
def joinNL : List Str → Str
  | [] => []
  | [x] => x
  | x :: xs => x ++ '\n' :: joinNL xs

/-! ## `json.dumps(..., sort_keys=True)` for the context-bundle shape

`ContextProvider._compute_evidence_hash` serializes the context dict with
`json.dumps(evidence, sort_keys=True)` (default separators `", "`/`": "`,
default `ensure_ascii=True`) and hashes the UTF-8 bytes with SHA-256. -/

/-- The escape `json.dumps` applies to one character of a string value
(default `ensure_ascii=True`: everything outside `32..126` except the
two-character escapes is `\uXXXX`, with surrogate pairs above the BMP). -/
def jsonEscapeChar (c : Char) : Str :=
  if c = '"' then ['\\', '"']
  else if c = '\\' then ['\\', '\\']
  else if c = '\x08' then ['\\', 'b']
  else if c = '\x0c' then ['\\', 'f']
  else if c = '\n' then ['\\', 'n']
  else if c = '\r' then ['\\', 'r']
  else if c = '\t' then ['\\', 't']
  else if c.toNat < 32 then '\\' :: 'u' :: hex4 c.toNat
  else if c.toNat < 127 then [c]
  else if c.toNat < 65536 then '\\' :: 'u' :: hex4 c.toNat
  else
    let v := c.toNat - 65536
    ('\\' :: 'u' :: hex4 (55296 + v / 1024)) ++ ('\\' :: 'u' :: hex4 (56320 + v % 1024))

/-- A JSON string literal: quoted, character-wise escaped. -/
def jsonStr (s : Str) : Str := '"' :: (s.map jsonEscapeChar).flatten ++ ['"']

/-- JSON rendering of an integer value. -/
def jsonInt (i : Int) : Str := (toString i).data

/-- JSON rendering of a SQL `Float` column holding an integral value
(`50.0` style); the model restricts `annual_revenue` to integral floats. -/
def jsonFloatOfInt (i : Int) : Str := (toString i).data ++ (".0").data

/-! ## `services/context_provider.py` -/

/-- A row of the `suppliers` table as returned by `get_supplier_core`
(all columns non-null in the model). -/
structure SupplierCore where
  id : Str
  name : Str
  annual_revenue : Int
  employee_count : Int
  founded_year : Int
  hq_location : Str
  industry : Str
deriving DecidableEq

/-- An internal document as returned by `get_internal_docs`
(fields `type`, `content`, `timestamp`, `source`). -/
structure InternalDoc where
  type : Str
  content : Str
  timestamp : Str
  source : Str
deriving DecidableEq

/-- A news article as returned by `get_recent_news`
(fields `type="news"`, `title`, `content`, `published`, `source`, `tone`). -/
structure NewsItem where
  title : Str
  content : Str
  published : Str
  source : Str
  tone : ℚ
deriving DecidableEq

/-- One internal-evidence line:
`f"[E{i}] {doc['type'].title()} ({doc['timestamp']}): {doc['content']}"`. -/
def internalLine (i : Nat) (d : InternalDoc) : Str :=
  ("[E").data ++ natStr i ++ ("] ").data ++ pyTitle d.type ++ (" (").data ++
    d.timestamp ++ ("): ").data ++ d.content

/-- One external-evidence line:
`f"[E{i}] News ({article['published']}): {article['title']} - {article['content']}"`. -/
def newsLine (i : Nat) (a : NewsItem) : Str :=
  ("[E").data ++ natStr i ++ ("] News (").data ++ a.published ++ ("): ").data ++
    a.title ++ (" - ").data ++ a.content

/-- `enumerate(internal_docs, start)` mapped through `internalLine`. -/
def internalLines (start : Nat) : List InternalDoc → List Str
  | [] => []
  | d :: ds => internalLine start d :: internalLines (start + 1) ds

/-- `enumerate(news, start)` mapped through `newsLine`. -/
def newsLines (start : Nat) : List NewsItem → List Str
  | [] => []
  | a :: as' => newsLine start a :: newsLines (start + 1) as'

/-- The `evidence` text of `get_context_bundle`: an `### INTERNAL` block of
internal lines labelled from `E1`, then an `### EXTERNAL` block of news
lines labelled from `E(len(internal_docs)+1)`, joined with newlines. -/
def evidenceText (docs : List InternalDoc) (news : List NewsItem) : Str :=
  ("\n### INTERNAL\n").data ++ joinNL (internalLines 1 docs) ++
    ("\n\n### EXTERNAL\n").data ++ joinNL (newsLines (docs.length + 1) news)

/-- The context bundle built by `get_context_bundle`:
`{"supplier_core": ..., "evidence": ...}`. -/
structure PContext where
  supplier_core : SupplierCore
  evidence : Str
deriving DecidableEq

/-- `ContextProvider.get_context_bundle` after the two collection queries
returned `docs` and `news` (the supplier's core record exists). -/
def get_context_bundle (core : SupplierCore) (docs : List InternalDoc)
    (news : List NewsItem) : PContext :=
  { supplier_core := core, evidence := evidenceText docs news }

/-- `json.dumps(context, sort_keys=True)`: keys in lexicographic order
(`evidence` before `supplier_core`; inside the core record
`annual_revenue, employee_count, founded_year, hq_location, id, industry,
name`), default separators. -/
def serializeContext (ctx : PContext) : Str :=
  ("\x7b\"evidence\": ").data ++ jsonStr ctx.evidence ++
    (", \"supplier_core\": \x7b\"annual_revenue\": ").data ++
    jsonFloatOfInt ctx.supplier_core.annual_revenue ++
    (", \"employee_count\": ").data ++ jsonInt ctx.supplier_core.employee_count ++
    (", \"founded_year\": ").data ++ jsonInt ctx.supplier_core.founded_year ++
    (", \"hq_location\": ").data ++ jsonStr ctx.supplier_core.hq_location ++
    (", \"id\": ").data ++ jsonStr ctx.supplier_core.id ++
    (", \"industry\": ").data ++ jsonStr ctx.supplier_core.industry ++
    (", \"name\": ").data ++ jsonStr ctx.supplier_core.name ++
    ("\x7d\x7d").data

/-- `ContextProvider._compute_evidence_hash`: SHA-256 hex digest of the
sorted-keys JSON serialization of the context dict. -/
def compute_evidence_hash (ctx : PContext) : Str :=
  sha256HexOfAscii (serializeContext ctx)

/-- The Redis cache key used by `get_cached_review` / `cache_review`:
`f"review:{supplier_id}:{evidence_hash}"`. -/
def reviewCacheKey (supplier_id evidence_hash : Str) : Str :=
  ("review:").data ++ supplier_id ++ (":").data ++ evidence_hash

/-! ## Kernel-evaluable rational arithmetic

The library's `Rat.add/sub/mul/div` are irreducible, so the embedding uses
`mkRat`-based equivalents (proved equal to the standard operations below)
wherever a theorem is settled by evaluation. -/

/-- Rational addition via `mkRat` (kernel-evaluable; equals `a + b`). -/
def qadd (a b : ℚ) : ℚ := mkRat (a.num * b.den + b.num * a.den) (a.den * b.den)

/-- Rational subtraction via `mkRat` (kernel-evaluable; equals `a - b`). -/
def qsub (a b : ℚ) : ℚ := mkRat (a.num * b.den - b.num * a.den) (a.den * b.den)

/-- Rational multiplication via `mkRat` (kernel-evaluable; equals `a * b`). -/
def qmul (a b : ℚ) : ℚ := mkRat (a.num * b.num) (a.den * b.den)

/-- Division of a rational by a natural number (kernel-evaluable). -/
def qdivNat (a : ℚ) (n : Nat) : ℚ := mkRat a.num (a.den * n)

/-! ## IEEE-754 binary64 rounding on rationals

Python floats are binary64.  A float value is modelled as the rational it
denotes; `fl` rounds an exact rational to the nearest binary64 value
(round-half-even, normal range — all quantities in this development lie
well inside it), so `fadd x y = fl (x + y)` and `fmul x y = fl (x * y)`
are exactly Python's `+` and `*` on floats, and a Python float literal
`0.1` denotes `fl (mkRat 1 10)`. -/

/-- `2 ^ e` as a rational, for an integer exponent. -/
def pow2 (e : Int) : ℚ :=
  if 0 ≤ e then ((2 ^ e.toNat : Nat) : ℚ) else mkRat 1 (2 ^ (-e).toNat)

/-- Absolute value of a rational, written so the kernel evaluates it. -/
def absQ (q : ℚ) : ℚ := if q < 0 then -q else q

/-- Floor of a rational as an integer (floor division of numerator by
denominator), written so the kernel evaluates it. -/
def floorQ (q : ℚ) : Int := Int.fdiv q.num (q.den : Int)

/-- Round a rational to the nearest integer, ties to even. -/
def rhe (q : ℚ) : Int :=
  let f := floorQ q
  let r := qsub q (f : ℚ)
  if r < mkRat 1 2 then f
  else if mkRat 1 2 < r then f + 1
  else if f % 2 = 0 then f else f + 1

/-- Smallest exponent `e` (searched from `-60`) with `a < 2 ^ e`;
for `0 < a` in the searched range this gives `2^(e-1) ≤ a < 2^e`. -/
def flExpFrom (a : ℚ) : Nat → Int → Int
  | 0, e => e
  | fuel + 1, e => if a < pow2 e then e else flExpFrom a fuel (e + 1)

/-- Binade exponent used by `fl`. -/
def flExp (a : ℚ) : Int := flExpFrom a 130 (-60)

/-- Round an exact rational to the nearest binary64 value (normal range). -/
def fl (q : ℚ) : ℚ :=
  if q = 0 then 0
  else
    let a := absQ q
    let e := flExp a
    let m := rhe (qmul a (pow2 (53 - e)))
    let r := qmul (m : ℚ) (pow2 (e - 53))
    if q < 0 then -r else r

/-- The binary64 value of the decimal literal `i / 10^k` (Python float
literals such as `0.25` are `decLit 25 2`). -/
def decLit (i : Int) (k : Nat) : ℚ := fl (mkRat i (10 ^ k))

/-- Python float addition. -/
def fadd (x y : ℚ) : ℚ := fl (qadd x y)

/-- Python float multiplication. -/
def fmul (x y : ℚ) : ℚ := fl (qmul x y)

/-- Python `sum(...)` over floats: left fold of float addition from `0`. -/
def pySum (l : List ℚ) : ℚ := l.foldl fadd 0

/-- Python `round(x, 2)` on a float: correctly-rounded two-decimal rounding
of the exact value (ties to even), re-rounded to binary64. -/
def pyRound2 (x : ℚ) : ℚ := fl (qdivNat (rhe (qmul x 100) : ℚ) 100)

/-! ## `services/llm_reviewer.py` -/

/-- Pydantic `DimensionScore`: `score` constrained to `ge=0.0, le=1.0`
at model construction (validation, not clamping). -/
structure DimensionScore where
  score : ℚ
  reason : Str
deriving DecidableEq

/-- Pydantic `OverallRisk`: `score` constrained to `ge=0.0, le=1.0`. -/
structure OverallRisk where
  grade : Str
  score : ℚ
  reason : Str
deriving DecidableEq

/-- The five dimension entries of an assessment response / review. -/
structure Dimensions where
  financial : DimensionScore
  supply : DimensionScore
  reputation : DimensionScore
  quality : DimensionScore
  geo : DimensionScore
deriving DecidableEq

/-- The JSON-shaped assessment-backend response consumed by
`_postprocess_review` (all five dimensions present). -/
structure LLMResponse where
  supplier : Str
  overall_risk : OverallRisk
  dimensions : Dimensions
deriving DecidableEq

/-- Pydantic `RiskReview`. -/
structure RiskReview where
  supplier : Str
  overall_risk : OverallRisk
  dimensions : Dimensions
  timestamp : ℚ
  evidence_hash : Str
deriving DecidableEq

/-- `DIMENSION_WEIGHTS`, in insertion order, weights as Python floats. -/
def DIMENSION_WEIGHTS : List (Str × ℚ) :=
  [(("financial").data, decLit 25 2), (("supply").data, decLit 30 2),
   (("reputation").data, decLit 20 2), (("quality").data, decLit 15 2),
   (("geo").data, decLit 10 2)]

/-- `scores[dim]` for the five dimension keys. -/
def Dimensions.get (d : Dimensions) (name : Str) : DimensionScore :=
  if name = ("financial").data then d.financial
  else if name = ("supply").data then d.supply
  else if name = ("reputation").data then d.reputation
  else if name = ("quality").data then d.quality
  else d.geo

/-- `sum(scores[dim]["score"] * DIMENSION_WEIGHTS[dim] for dim in
DIMENSION_WEIGHTS)` in float arithmetic. -/
def weighted_score (resp : LLMResponse) : ℚ :=
  pySum (DIMENSION_WEIGHTS.map fun dw => fmul (resp.dimensions.get dw.1).score dw.2)

/-- The grade chain of `_postprocess_review`:
`"high" if ws > 0.66 else "medium" if ws > 0.33 else "low"`
(the threshold literals are the floats `decLit 66 2` and `decLit 33 2`). -/
def gradeOf (ws : ℚ) : Str :=
  if ws > decLit 66 2 then ("high").data
  else if ws > decLit 33 2 then ("medium").data
  else ("low").data

/-- Whether a score satisfies the pydantic field bounds `ge=0.0, le=1.0`. -/
def scoreInRange (s : ℚ) : Bool := decide (0 ≤ s) && decide (s ≤ 1)

/-- `RiskReview(**llm_response)`: pydantic construction, which validates the
`ge`/`le` field constraints of every `DimensionScore` and of
`OverallRisk.score`, raising a `ValidationError` otherwise. -/
def mkRiskReview (supplier : Str) (ov : OverallRisk) (dims : Dimensions)
    (ts : ℚ) (eh : Str) : Except Str RiskReview :=
  if scoreInRange dims.financial.score && scoreInRange dims.supply.score &&
      scoreInRange dims.reputation.score && scoreInRange dims.quality.score &&
      scoreInRange dims.geo.score && scoreInRange ov.score then
    .ok { supplier := supplier, overall_risk := ov, dimensions := dims,
          timestamp := ts, evidence_hash := eh }
  else
    .error (("ValidationError").data)

/-- `LLMReviewer._postprocess_review`: weighted float sum of the dimension
scores, grade from the unrounded sum, overall score rounded to 2 decimals,
`evidence_hash` set to the constant `"mock_hash"`, then pydantic
construction.  `now` is the wall clock read for the timestamp. -/
def postprocess_review (resp : LLMResponse) (now : ℚ) : Except Str RiskReview :=
  mkRiskReview resp.supplier
    { grade := gradeOf (weighted_score resp)
      score := pyRound2 (weighted_score resp)
      reason := resp.overall_risk.reason }
    resp.dimensions now (("mock_hash").data)

/-- `LLMReviewer._mock_response`. -/
def mock_response (supplier_name : Str) : LLMResponse :=
  { supplier := supplier_name
    overall_risk :=
      { grade := ("medium").data, score := decLit 45 2
        reason := ("Mixed signals: strong financials [E3] but supply concerns [E2]").data }
    dimensions :=
      { financial := { score := decLit 2 1, reason := ("15% revenue growth [E3]").data }
        supply := { score := decLit 6 1, reason := ("Production delays reported [E2]").data }
        reputation := { score := decLit 3 1, reason := ("No major incidents [E4]").data }
        quality := { score := decLit 4 1, reason := ("B+ quality rating [E1]").data }
        geo := { score := decLit 3 1, reason := ("Insufficient data").data } } }

/-- The tail of `review_supplier` after a cache miss: propagate a
post-processing error, else return the review together with the cache
write under the evidence-hash key. -/
def finishReview (supplier_id ehash : Str) (res : Except Str RiskReview) :
    Except Str (RiskReview × Option (Str × RiskReview)) :=
  match res with
  | .error e => .error e
  | .ok review => .ok (review, some (reviewCacheKey supplier_id ehash, review))

/-- `LLMReviewer.review_supplier` with a context provider and no OpenAI
client (mock-response path), for one call: `cached` is the entry the Redis
cache holds under this supplier/evidence-hash key; the result pairs the
returned review with the cache write (key, value) performed, if any. -/
def review_supplier (supplier_id : Str) (core : SupplierCore)
    (docs : List InternalDoc) (news : List NewsItem)
    (cached : Option RiskReview) (now : ℚ) :
    Except Str (RiskReview × Option (Str × RiskReview)) :=
  match cached with
  | some r => .ok (r, none)
  | none =>
    finishReview supplier_id
      (compute_evidence_hash (get_context_bundle core docs news))
      (postprocess_review
        (mock_response (get_context_bundle core docs news).supplier_core.name) now)

/-! ## `datetime.fromisoformat` (model)

Timestamps are modelled as seconds; an aware datetime carries its epoch
seconds (UTC), a naive one its uninterpreted local seconds.  The parser
covers `YYYY-MM-DD[<sep>HH:MM[:SS]][±HH:MM]` with calendar validation
(fractional seconds are not modelled).  Python raises `ValueError` on an
unparsable string — and `TypeError` when an aware datetime is compared
with or subtracted from a naive one. -/

/-- A parsed datetime: aware (with UTC offset applied) or naive. -/
inductive ParsedDT where
  | aware (epochSeconds : Int)
  | naive (localSeconds : Int)
deriving DecidableEq

/-- Two decimal digits as a number. -/
def twoDigits (a b : Char) : Option Nat :=
  if a.isDigit && b.isDigit then some ((a.toNat - 48) * 10 + (b.toNat - 48)) else none

/-- Four decimal digits as a number. -/
def fourDigits (a b c d : Char) : Option Nat :=
  if a.isDigit && b.isDigit && c.isDigit && d.isDigit then
    some ((((a.toNat - 48) * 10 + (b.toNat - 48)) * 10 + (c.toNat - 48)) * 10 + (d.toNat - 48))
  else none

/-- Proleptic-Gregorian leap year. -/
def leapYear (y : Int) : Bool := (y % 4 = 0 && y % 100 ≠ 0) || y % 400 = 0

/-- Days in a month. -/
def daysInMonth (y : Int) (m : Nat) : Nat :=
  if m = 2 then (if leapYear y then 29 else 28)
  else if m = 4 || m = 6 || m = 9 || m = 11 then 30
  else 31

/-- Days since the Unix epoch of a civil date (Hinnant's algorithm). -/
def daysFromCivil (y : Int) (m d : Int) : Int :=
  let yy := if m ≤ 2 then y - 1 else y
  let era := Int.fdiv yy 400
  let yoe := yy - era * 400
  let doy := Int.fdiv (153 * (if m ≤ 2 then m + 9 else m - 3) + 2) 5 + d - 1
  let doe := yoe * 365 + Int.fdiv yoe 4 - Int.fdiv yoe 100 + doy
  era * 146097 + doe - 719468

/-- Parse `HH:MM` or `HH:MM:SS`, returning seconds-in-day and the rest. -/
def parseTimePart (s : Str) : Option (Nat × Str) :=
  match s with
  | h1 :: h2 :: ':' :: m1 :: m2 :: rest =>
    match twoDigits h1 h2, twoDigits m1 m2 with
    | some h, some mi =>
      if h < 24 && mi < 60 then
        match rest with
        | ':' :: s1 :: s2 :: rest2 =>
          match twoDigits s1 s2 with
          | some sec => if sec < 60 then some (h * 3600 + mi * 60 + sec, rest2) else none
          | none => none
        | _ => some (h * 3600 + mi * 60, rest)
      else none
    | _, _ => none
  | _ => none

/-- Parse a trailing UTC offset `±HH:MM`; `none` input means a naive time. -/
def parseOffsetPart (s : Str) : Option (Option Int) :=
  match s with
  | [] => some none
  | '+' :: rest =>
    match parseTimePart rest with
    | some (secs, []) => some (some (secs : Int))
    | _ => none
  | '-' :: rest =>
    match parseTimePart rest with
    | some (secs, []) => some (some (-(secs : Int)))
    | _ => none
  | _ => none

/-- `datetime.fromisoformat` (model): `none` is Python's `ValueError`. -/
def fromisoformat (s : Str) : Option ParsedDT :=
  match s with
  | y1 :: y2 :: y3 :: y4 :: '-' :: m1 :: m2 :: '-' :: d1 :: d2 :: rest =>
    match fourDigits y1 y2 y3 y4, twoDigits m1 m2, twoDigits d1 d2 with
    | some y, some mo, some da =>
      if 1 ≤ mo && mo ≤ 12 && 1 ≤ da && da ≤ daysInMonth (y : Int) mo then
        let dateSecs := daysFromCivil (y : Int) (mo : Int) (da : Int) * 86400
        match rest with
        | [] => some (.naive dateSecs)
        | _sep :: timeRest =>
          match parseTimePart timeRest with
          | some (daySecs, offRest) =>
            match parseOffsetPart offRest with
            | some none => some (.naive (dateSecs + (daySecs : Int)))
            | some (some off) => some (.aware (dateSecs + (daySecs : Int) - off))
            | none => none
          | none => none
      else none
    | _, _, _ => none
  | _ => none

/-- Python `s.replace('Z', '+00:00')` (every occurrence). -/
def pyreplaceZ (s : Str) : Str :=
  (s.map fun c => if c = 'Z' then ("+00:00").data else [c]).flatten

/-! ## `dagster_jobs/ops/risk_score.py` -/

/-- The metadata map of a news document, as used by the risk-score ops
(`published` may be absent; `tone` is a number when present). -/
structure DocMeta where
  published : Option Str
  tone : Option ℚ
deriving DecidableEq

/-- A news document returned by the Airweave query. -/
structure NewsDoc where
  content : Str
  metadata : DocMeta
deriving DecidableEq

/-- `WEIGHTS['tone']`, in insertion order: `(range_min, range_max, weight)`
rows, bounds and weights being the Python float literals. -/
def toneWEIGHTS : List (ℚ × ℚ × ℚ) :=
  [(decLit (-1) 0, decLit (-5) 1, decLit 2 0),
   (decLit (-5) 1, decLit (-1) 1, decLit 1 0),
   (decLit (-1) 1, decLit 1 1, decLit 0 0),
   (decLit 1 1, decLit 5 1, decLit (-5) 1),
   (decLit 5 1, decLit 1 0, decLit (-1) 0)]

/-- `WEIGHTS['recency']`: `(min_hours, max_hours, weight)` rows, the last
upper bound being `float('inf')` (modelled as `none`). -/
def recencyWEIGHTS : List (ℚ × Option ℚ × ℚ) :=
  [(decLit 0 0, some (decLit 24 0), decLit 1 0),
   (decLit 24 0, some (decLit 168 0), decLit 5 1),
   (decLit 168 0, none, decLit 1 1)]

/-- The tone loop over a row list: the first row with
`min_val <= tone <= max_val` contributes its weight (`score += weight`
then `break`); no row, nothing. -/
def toneBucketGo (tone : ℚ) : List (ℚ × ℚ × ℚ) → ℚ
  | [] => 0
  | row :: rest => if row.1 ≤ tone ∧ tone ≤ row.2.1 then row.2.2 else toneBucketGo tone rest

/-- The tone loop of `compute_risk_score`. -/
def toneBucketDelta (tone : ℚ) : ℚ := toneBucketGo tone toneWEIGHTS

/-- The recency loop over a row list: the first row with
`min_hours <= hours_old < max_hours` yields its weight (none matches a
negative age, since the first lower bound is `0`). -/
def recencyGo (h : ℚ) : List (ℚ × Option ℚ × ℚ) → Option ℚ
  | [] => none
  | row :: rest =>
    if row.1 ≤ h then
      match row.2.1 with
      | some hi => if h < hi then some row.2.2 else recencyGo h rest
      | none => some row.2.2
    else recencyGo h rest

/-- The recency loop of `compute_risk_score`. -/
def recencyFactor (h : ℚ) : Option ℚ := recencyGo h recencyWEIGHTS

/-- The per-item score of the `compute_risk_score` loop body, from the tone
value and the age in hours: the tone weight added to `0.0`, then multiplied
by the recency weight when a recency row matched. -/
def itemScoreVal (tone h : ℚ) : ℚ :=
  let s1 := fadd 0 (toneBucketDelta tone)
  match recencyFactor h with
  | some w => fmul s1 w
  | none => s1

/-- One iteration of the `compute_risk_score` loop up to the score:
tone defaults to `-1.0`; `published` defaults to `now.isoformat()` (which
parses back to `now`); an unparsable timestamp raises `ValueError`, an
offset-naive one makes `now - pub_date` raise `TypeError`. -/
def itemScore (now : ℚ) (item : NewsDoc) : Except Str ℚ :=
  let tone := item.metadata.tone.getD (-1)
  let pub : Except Str ℚ :=
    match item.metadata.published with
    | none => .ok now
    | some p =>
      match fromisoformat (pyreplaceZ p) with
      | none => .error (("ValueError").data)
      | some (.naive _) => .error (("TypeError").data)
      | some (.aware t) => .ok ((t : Int) : ℚ)
  match pub with
  | .error e => .error e
  | .ok pubT => .ok (itemScoreVal tone (qdivNat (qsub now pubT) 3600))

/-- The running-maximum loop of `compute_risk_score`: strictly greater
scores replace the best item (`if score > max_score`), starting from
`max_score = 0.0`, `top_snippet = ""`; snippets are `content[:500]`. -/
def computeGo (now : ℚ) : List NewsDoc → ℚ → Str → Except Str (ℚ × Str)
  | [], maxScore, top => .ok (maxScore, top)
  | item :: rest, maxScore, top =>
    match itemScore now item with
    | .error e => .error e
    | .ok score =>
      if score > maxScore then computeGo now rest score (item.content.take 500)
      else computeGo now rest maxScore top

/-- `compute_risk_score` (the dagster op, minus logging): empty input
short-circuits to `(0.0, "")`. -/
def compute_risk_score (now : ℚ) (news_items : List NewsDoc) : Except Str (ℚ × Str) :=
  if news_items.isEmpty then .ok (0, []) else computeGo now news_items 0 []

/-- The date filter of `fetch_recent_news`: items with a missing `published`
are skipped, a `ValueError` from parsing is caught and the item skipped,
and items published within the last day (`start_time <= t <= end_time`)
are kept; comparing the aware bounds against an offset-naive parse raises
an uncaught `TypeError`. -/
def fetchFilter (now : ℚ) : List NewsDoc → Except Str (List NewsDoc)
  | [] => .ok []
  | doc :: rest =>
    match doc.metadata.published with
    | none => fetchFilter now rest
    | some p =>
      match fromisoformat (pyreplaceZ p) with
      | none => fetchFilter now rest
      | some (.naive _) => .error (("TypeError").data)
      | some (.aware t) =>
        if qsub now 86400 ≤ ((t : Int) : ℚ) ∧ ((t : Int) : ℚ) ≤ now then
          match fetchFilter now rest with
          | .error e => .error e
          | .ok kept => .ok (doc :: kept)
        else fetchFilter now rest

/-! ## `app/routes/supplier_risk.py` -/

/-- A raised Python exception as the route sees it: a fastapi
`HTTPException` (with status and detail) or any other exception. -/
inductive PyErr where
  | http (status : Nat) (detail : Str)
  | exc (msg : Str)
deriving DecidableEq

/-- `str(e)`: starlette's `HTTPException.__str__` is
`f"{status_code}: {detail}"`. -/
def pyStrOfErr : PyErr → Str
  | .http st detail => natStr st ++ (": ").data ++ detail
  | .exc m => m

/-- `get_supplier_risk`: the `try` body executes the query (`db` is its
outcome: an error, no row, or the latest profile's `risk_json`), raises a
404 `HTTPException` when no profile is found, and returns the JSON
otherwise; `except Exception` catches *any* exception — including the 404
`HTTPException` just raised — and re-raises a 500 wrapping `str(e)`.
The result is the raised exception (`inl`) or the 200 body (`inr`). -/
def get_supplier_risk (supplier_id : Str) (db : Except Str (Option Str)) :
    PyErr ⊕ Str :=
  let tryBody : Except PyErr Str :=
    match db with
    | .error e => .error (.exc e)
    | .ok none =>
      .error (.http 404 (("No risk profile found for supplier ").data ++ supplier_id))
    | .ok (some profile) => .ok profile
  match tryBody with
  | .ok p => .inr p
  | .error e =>
    .inl (.http 500 (("Error fetching risk profile: ").data ++ pyStrOfErr e))

/-! ## Interleaving model of concurrent `review_supplier` calls

`review_supplier` awaits at the context fetch, the cache read, the backend
call, and the cache write; between awaits it runs atomically.  For a fixed
supplier and evidence hash (so a single cache key), a task is at one of
the program counters below; a schedule is the order in which the event
loop resumes the two tasks.  There is no lock or single-flight structure
in the code: a task that read a miss proceeds to call the backend
regardless of the other task. -/

/-- Program counter of one in-flight `review_supplier` call. -/
inductive TaskPC where
  | atCacheRead
  | atBackendCall
  | atCacheWrite
  | finished (r : RiskReview)
deriving DecidableEq

/-- Two concurrent calls for the same key: the shared cache entry, the
number of assessment-backend invocations, and each task's position. -/
structure FlightState where
  cache : Option RiskReview
  backendCalls : Nat
  task0 : TaskPC
  task1 : TaskPC
deriving DecidableEq

/-- Advance one task by one awaited step; `rv` is the review the mock
backend path computes (the same for both tasks, the context being fixed). -/
def stepTaskPC (rv : RiskReview) (cache : Option RiskReview) (pc : TaskPC) :
    Option RiskReview × Nat × TaskPC :=
  match pc with
  | .atCacheRead =>
    match cache with
    | some r => (cache, 0, .finished r)
    | none => (cache, 0, .atBackendCall)
  | .atBackendCall => (cache, 1, .atCacheWrite)
  | .atCacheWrite => (some rv, 0, .finished rv)
  | .finished r => (cache, 0, .finished r)

/-- Resume task `false`/`true` once. -/
def stepFlight (rv : RiskReview) (s : FlightState) (i : Bool) : FlightState :=
  if i then
    { cache := (stepTaskPC rv s.cache s.task1).1
      backendCalls := s.backendCalls + (stepTaskPC rv s.cache s.task1).2.1
      task0 := s.task0
      task1 := (stepTaskPC rv s.cache s.task1).2.2 }
  else
    { cache := (stepTaskPC rv s.cache s.task0).1
      backendCalls := s.backendCalls + (stepTaskPC rv s.cache s.task0).2.1
      task0 := (stepTaskPC rv s.cache s.task0).2.2
      task1 := s.task1 }

/-- Run a schedule from a state. -/
def runFlight (rv : RiskReview) (s : FlightState) (sched : List Bool) : FlightState :=
  sched.foldl (stepFlight rv) s

/-- Both tasks start at the cache read, the key uncached, no backend calls. -/
def initFlight : FlightState :=
  { cache := none, backendCalls := 0, task0 := .atCacheRead, task1 := .atCacheRead }

/-- Calls not yet past the backend-call step (used for the call bound). -/
def pendingTask : TaskPC → Nat
  | .atCacheRead => 1
  | .atBackendCall => 1
  | .atCacheWrite => 0
  | .finished _ => 0

/-- Backend calls made so far plus calls that could still make one. -/
def flightPotential (s : FlightState) : Nat :=
  s.backendCalls + pendingTask s.task0 + pendingTask s.task1

/-! ## Specification-side definitions

These definitions follow the words of the specification / claims and are
compared against the source-derived definitions above; they are not
translations of the source. -/

/-- Modelled from the spec (claim C7 table): the tone weight — `2.0` on
`[-1.0,-0.5]`, `1.0` on `(-0.5,-0.1]`, `0.0` on `(-0.1,0.1]`, `-0.5` on
`(0.1,0.5]`, `-1.0` on `(0.5,1.0]` (bounds being the program's float
constants); intended for tone in `[-1,1]`. -/
def toneWeightSpec (tone : ℚ) : ℚ :=
  if tone ≤ decLit (-5) 1 then 2
  else if tone ≤ decLit (-1) 1 then 1
  else if tone ≤ decLit 1 1 then 0
  else if tone ≤ decLit 5 1 then -(mkRat 1 2)
  else -1

/-- Modelled from the spec (claim C7 table): the recency weight — `1.0`
under 24 hours, `0.5` on `[24,168)` hours, `0.1` at or above 168 hours;
intended for nonnegative age. -/
def recencyWeightSpec (h : ℚ) : ℚ :=
  if h < 24 then 1 else if h < 168 then mkRat 1 2 else decLit 1 1

/-- Whether an `Except` is a success. -/
def exceptOk {α : Type} : Except Str α → Bool
  | .ok _ => true
  | .error _ => false

/-- The per-item score as a plain value (`0` for the impossible error
case; used only under all-items-parse hypotheses). -/
def itemScoreD (now : ℚ) (i : NewsDoc) : ℚ := (itemScore now i).toOption.getD 0

/-- The list of per-item scores. -/
def itemScores (now : ℚ) (items : List NewsDoc) : List ℚ :=
  items.map (itemScoreD now)

/-- The pair `(M, snippet of the first item scoring M)` (fallback `t`). -/
def bestAt (now : ℚ) (items : List NewsDoc) (M : ℚ) (t : Str) : ℚ × Str :=
  match items.find? (fun i => decide (itemScoreD now i = M)) with
  | some i => (M, i.content.take 500)
  | none => (M, t)

/-- The mirror of the `compute_risk_score` loop without the error monad
(used to state its characterization): same strict-maximum fold. -/
def specFold (now : ℚ) : List NewsDoc → ℚ → Str → ℚ × Str
  | [], m, t => (m, t)
  | i :: rest, m, t =>
    if itemScoreD now i > m then specFold now rest (itemScoreD now i) (i.content.take 500)
    else specFold now rest m t

/-- Modelled from the spec (claim C8): the top item — the maximum per-item
score (at least `0.0`), and, when that maximum is strictly positive, the
snippet of the first item attaining it; otherwise an empty snippet. -/
def specTop (now : ℚ) (items : List NewsDoc) : ℚ × Str :=
  if 0 < (itemScores now items).foldl max 0 then
    bestAt now items ((itemScores now items).foldl max 0) []
  else ((itemScores now items).foldl max 0, [])

/-- Rank of a grade string, for monotonicity statements. -/
def gradeRank (g : Str) : Nat :=
  if g = ("high").data then 2 else if g = ("medium").data then 1 else 0

/-- The five dimension scores of a `Dimensions` record, in weight order. -/
def dimScoresOf (d : Dimensions) : List ℚ :=
  [d.financial.score, d.supply.score, d.reputation.score, d.quality.score, d.geo.score]

/-- Whether a parsable `published` timestamp parses offset-naive. -/
def parsesNaive (d : NewsDoc) : Bool :=
  match d.metadata.published with
  | some p =>
    match fromisoformat (pyreplaceZ p) with
    | some (.naive _) => true
    | _ => false
  | none => false

/-! ## Concrete inputs used by the evaluated statements -/

/-- A supplier row. -/
def core0 : SupplierCore :=
  { id := ("S1").data, name := ("Acme").data, annual_revenue := 50,
    employee_count := 10, founded_year := 2010,
    hq_location := ("Berlin").data, industry := ("metal").data }

/-- A first internal document. -/
def docA : InternalDoc :=
  { type := ("sap").data, content := ("a").data,
    timestamp := ("2025-06-01").data, source := ("SAP").data }

/-- A second internal document. -/
def docB : InternalDoc :=
  { type := ("email").data, content := ("b").data,
    timestamp := ("2025-07-01").data, source := ("Mail").data }

/-- `docB` with its content changed. -/
def docBc : InternalDoc := { docB with content := ("c").data }

/-- A zero-score dimension entry. -/
def zeroDim : DimensionScore := { score := 0, reason := [] }

/-- The spec's end-to-end example response:
dimension scores `{financial: 0.1, supply: 0.6, reputation: 0.3,
quality: 0.4, geo: 0.3}`. -/
def exampleResponse : LLMResponse :=
  { supplier := ("X").data
    overall_risk := { grade := [], score := 0, reason := [] }
    dimensions :=
      { financial := { score := decLit 1 1, reason := [] }
        supply := { score := decLit 6 1, reason := [] }
        reputation := { score := decLit 3 1, reason := [] }
        quality := { score := decLit 4 1, reason := [] }
        geo := { score := decLit 3 1, reason := [] } } }

/-- An all-zero review, as a fallback for `Option.getD`. -/
def emptyReview : RiskReview :=
  { supplier := [], overall_risk := { grade := [], score := 0, reason := [] }
    dimensions :=
      { financial := zeroDim, supply := zeroDim, reputation := zeroDim,
        quality := zeroDim, geo := zeroDim }
    timestamp := 0, evidence_hash := [] }

/-- The review `_postprocess_review` produces for the example response. -/
def exampleReview0 : RiskReview :=
  ((postprocess_review exampleResponse 0).toOption).getD emptyReview

/-- A response in which the backend returned `financial: 1.5`, outside
`[0,1]`. -/
def respBad : LLMResponse :=
  { supplier := ("X").data
    overall_risk := { grade := [], score := 0, reason := [] }
    dimensions :=
      { financial := { score := decLit 15 1, reason := [] }
        supply := zeroDim, reputation := zeroDim, quality := zeroDim, geo := zeroDim } }

/-- The review the mock backend path computes (used by the interleaving
model; the value itself is irrelevant to the call counts). -/
def mockReview0 : RiskReview :=
  ((postprocess_review (mock_response (("Metal-Can Co").data)) 0).toOption).getD emptyReview

/-- The review `review_supplier` computes for `core0` (name `Acme`). -/
def acmeReview0 : RiskReview :=
  ((postprocess_review (mock_response core0.name) 0).toOption).getD emptyReview

/-- A news document whose `published` string does not parse. -/
def docBadTS : NewsDoc :=
  { content := ("broken item").data
    metadata := { published := some (("not-a-date").data), tone := some (decLit (-8) 1) } }

/-- The epoch seconds of `2025-07-10T00:00:00+00:00`. -/
def t0 : Int := 1752105600

/-- A clock reading 10 hours after `t0`. -/
def now10 : ℚ := ((t0 + 36000 : Int) : ℚ)

/-- The spec's rule-based example item: tone `-0.8`, published 10 hours
before `now10`. -/
def itemEx : NewsDoc :=
  { content := ("Supplier hit by strike").data
    metadata := { published := some (("2025-07-10T00:00:00Z").data)
                  tone := some (decLit (-8) 1) } }

/-- An item with positive tone `0.3` (per-item score `-0.5` at age 0). -/
def itemPos : NewsDoc :=
  { content := ("Positive press").data
    metadata := { published := some (("2025-07-10T00:00:00+00:00").data)
                  tone := some (decLit 3 1) } }

/-- A news article. -/
def newsA : NewsItem :=
  { title := ("Strike at plant").data, content := ("x").data,
    published := ("2025-07-01").data, source := ("N").data, tone := 0 }

/-- `newsA` with its content changed. -/
def newsAc : NewsItem := { newsA with content := ("y").data }

/-- The cache key `review_supplier` writes for supplier `S1` with `core0`
and the two internal documents. -/
def key0 : Str :=
  reviewCacheKey (("S1").data)
    (compute_evidence_hash (get_context_bundle core0 [docA, docB] []))

/-! ## Bridging lemmas: the `mkRat`-based arithmetic agrees with `ℚ` -/

theorem qadd_eq (a b : ℚ) : qadd a b = a + b := by
  rw [qadd, Rat.mkRat_eq_div]
  have ha : (a.den : ℚ) ≠ 0 := by exact_mod_cast a.den_ne_zero
  have hb : (b.den : ℚ) ≠ 0 := by exact_mod_cast b.den_ne_zero
  conv_rhs => rw [← Rat.num_div_den a, ← Rat.num_div_den b]
  field_simp

theorem qsub_eq (a b : ℚ) : qsub a b = a - b := by
  rw [qsub, Rat.mkRat_eq_div]
  have ha : (a.den : ℚ) ≠ 0 := by exact_mod_cast a.den_ne_zero
  have hb : (b.den : ℚ) ≠ 0 := by exact_mod_cast b.den_ne_zero
  conv_rhs => rw [← Rat.num_div_den a, ← Rat.num_div_den b]
  field_simp
  ring

theorem qmul_eq (a b : ℚ) : qmul a b = a * b := by
  rw [qmul, Rat.mkRat_eq_div]
  have ha : (a.den : ℚ) ≠ 0 := by exact_mod_cast a.den_ne_zero
  have hb : (b.den : ℚ) ≠ 0 := by exact_mod_cast b.den_ne_zero
  conv_rhs => rw [← Rat.num_div_den a, ← Rat.num_div_den b]
  field_simp

theorem qdivNat_eq (a : ℚ) (n : Nat) (hn : n ≠ 0) : qdivNat a n = a / n := by
  rw [qdivNat, Rat.mkRat_eq_div]
  have ha : (a.den : ℚ) ≠ 0 := by exact_mod_cast a.den_ne_zero
  have hn' : (n : ℚ) ≠ 0 := by exact_mod_cast hn
  conv_rhs => rw [← Rat.num_div_den a]
  push_cast
  field_simp

/-! ## Characterization of `_postprocess_review` -/

/-- Helper: a review comes out of `_postprocess_review` exactly when every
dimension score and the rounded overall score pass the pydantic bounds, and
then the review is the response with recomputed overall risk, the given
timestamp, and the constant `"mock_hash"`. -/
theorem postprocess_toOption_some (resp : LLMResponse) (now : ℚ) (rev : RiskReview) :
    (postprocess_review resp now).toOption = some rev ↔
      ((dimScoresOf resp.dimensions).all scoreInRange = true ∧
       scoreInRange (pyRound2 (weighted_score resp)) = true ∧
       rev = { supplier := resp.supplier
               overall_risk :=
                 { grade := gradeOf (weighted_score resp)
                   score := pyRound2 (weighted_score resp)
                   reason := resp.overall_risk.reason }
               dimensions := resp.dimensions
               timestamp := now
               evidence_hash := ("mock_hash").data }) := by
  unfold postprocess_review mkRiskReview
  split_ifs with hc
  · simp only [Except.toOption, Option.some.injEq]
    constructor
    · intro h
      refine ⟨?_, ?_, h.symm⟩
      · simp only [dimScoresOf, List.all_cons, List.all_nil, Bool.and_true]
        simp only [Bool.and_eq_true] at hc ⊢
        exact ⟨hc.1.1.1.1.1, hc.1.1.1.1.2, hc.1.1.1.2, hc.1.1.2, hc.1.2⟩
      · simp only [Bool.and_eq_true] at hc
        exact hc.2
    · intro ⟨_, _, h⟩
      exact h.symm
  · simp only [Except.toOption]
    constructor
    · intro h
      exact absurd h (by simp)
    · intro ⟨hall, hov, _⟩
      exfalso
      apply hc
      simp only [dimScoresOf, List.all_cons, List.all_nil, Bool.and_true,
        Bool.and_eq_true] at hall
      simp only [Bool.and_eq_true]
      exact ⟨⟨⟨⟨⟨hall.1, hall.2.1⟩, hall.2.2.1⟩, hall.2.2.2.1⟩, hall.2.2.2.2⟩, hov⟩

/-! ## Claim theorems -/

/-- Claim C2 (amended): every produced review's overall score is the
weighted float sum of the five dimension scores under the fixed weights
(financial 0.25, supply 0.30, reputation 0.20, quality 0.15, geo 0.10),
rounded to 2 decimal digits, and its grade is computed from the unrounded
sum; the weights sum to exactly 1.0 in float arithmetic; the example
scores `{financial: 0.1, supply: 0.6, reputation: 0.3, quality: 0.4,
geo: 0.3}` give the weighted sum `float(0.355)` and hence a stored
`overall_score` of `0.35`, graded `medium`. -/
theorem C2_theorem :
    (∀ (resp : LLMResponse) (now : ℚ) (rev : RiskReview),
        (postprocess_review resp now).toOption = some rev →
        rev.overall_risk.score = pyRound2 (weighted_score resp) ∧
        rev.overall_risk.grade = gradeOf (weighted_score resp)) ∧
    pySum (DIMENSION_WEIGHTS.map Prod.snd) = 1 ∧
    weighted_score exampleResponse = decLit 355 3 ∧
    (postprocess_review exampleResponse 0).toOption.map
        (fun r => (r.overall_risk.score, r.overall_risk.grade)) =
      some (decLit 35 2, ("medium").data) := by
  refine ⟨?_, by decide, by decide, by decide⟩
  intro resp now rev h
  rw [postprocess_toOption_some] at h
  obtain ⟨-, -, rfl⟩ := h
  exact ⟨rfl, rfl⟩

/-- Claim C2, counterexample to the claim as stated: the example dimension
scores yield a stored overall score of `0.35` — not `0.355` (neither the
exact decimal nor its float), because the score is rounded to 2 decimal
digits before being attached. -/
theorem C2_counterexample :
    (postprocess_review exampleResponse 0).toOption.map (fun r => r.overall_risk.score) =
      some (decLit 35 2) ∧
    decLit 35 2 ≠ mkRat 355 1000 ∧ decLit 35 2 ≠ decLit 355 3 := by decide

/-- Claim C2, witness: the universal part instantiated at the example
response. -/
theorem C2_witness :
    exampleReview0.overall_risk.score = pyRound2 (weighted_score exampleResponse) ∧
    exampleReview0.overall_risk.grade = gradeOf (weighted_score exampleResponse) :=
  C2_theorem.1 exampleResponse 0 exampleReview0 (by decide)

/-- Claim C3: grade classification is total and non-overlapping — `high`
exactly above the 0.66 threshold constant, `medium` exactly on
`(0.33, 0.66]`, `low` exactly at or below 0.33; the boundary values 0.33
and 0.66 classify as `low` and `medium`; and a larger overall score never
gets a smaller grade. -/
theorem C3_theorem :
    (∀ s : ℚ,
        (gradeOf s = ("high").data ↔ decLit 66 2 < s) ∧
        (gradeOf s = ("medium").data ↔ decLit 33 2 < s ∧ s ≤ decLit 66 2) ∧
        (gradeOf s = ("low").data ↔ s ≤ decLit 33 2)) ∧
    gradeOf (decLit 33 2) = ("low").data ∧
    gradeOf (decLit 66 2) = ("medium").data ∧
    (∀ s s' : ℚ, s ≤ s' → gradeRank (gradeOf s) ≤ gradeRank (gradeOf s')) := by
  have h3366 : decLit 33 2 < decLit 66 2 := by decide
  have hhm : (("high").data : Str) ≠ ("medium").data := by decide
  have hhl : (("high").data : Str) ≠ ("low").data := by decide
  have hml : (("medium").data : Str) ≠ ("low").data := by decide
  refine ⟨fun s => ?_, by decide, by decide, fun s s' hss => ?_⟩
  · unfold gradeOf
    split_ifs with h1 h2
    · exact ⟨⟨fun _ => h1, fun _ => rfl⟩,
        ⟨fun h => absurd h hhm, fun hq => absurd h1 (not_lt.mpr hq.2)⟩,
        ⟨fun h => absurd h hhl, fun hq => absurd h1 (not_lt.mpr (le_trans hq h3366.le))⟩⟩
    · exact ⟨⟨fun h => absurd h.symm hhm, fun hq => absurd hq h1⟩,
        ⟨fun _ => ⟨h2, not_lt.mp h1⟩, fun _ => rfl⟩,
        ⟨fun h => absurd h hml, fun hq => absurd h2 (not_lt.mpr hq)⟩⟩
    · exact ⟨⟨fun h => absurd h.symm hhl, fun hq => absurd hq h1⟩,
        ⟨fun h => absurd h.symm hml, fun hq => absurd hq.1 h2⟩,
        ⟨fun _ => not_lt.mp h2, fun _ => rfl⟩⟩
  · unfold gradeOf
    by_cases h1 : s > decLit 66 2
    · have h1' : s' > decLit 66 2 := lt_of_lt_of_le h1 hss
      rw [if_pos h1, if_pos h1']
    · by_cases h2 : s > decLit 33 2
      · have h2' : s' > decLit 33 2 := lt_of_lt_of_le h2 hss
        rw [if_neg h1, if_pos h2]
        by_cases h1' : s' > decLit 66 2
        · rw [if_pos h1']
          decide
        · rw [if_neg h1', if_pos h2']
      · rw [if_neg h1, if_neg h2]
        have hlow : gradeRank (("low").data) = 0 := by decide
        rw [hlow]
        exact Nat.zero_le _

/-- Claim C3, witness: monotonicity instantiated at `0 ≤ 1`. -/
theorem C3_witness : gradeRank (gradeOf 0) ≤ gradeRank (gradeOf 1) :=
  C3_theorem.2.2.2 0 1 (by decide)

/-- Claim C5 (amended): `_postprocess_review` performs no clamping — the
dimension scores are passed through to the review unchanged, and a review
is produced only when every dimension score already lies in `[0,1]`
(pydantic validation); a response with any dimension score outside `[0,1]`
yields a validation error, not a clamped review. -/
theorem C5_theorem :
    (∀ (resp : LLMResponse) (now : ℚ) (rev : RiskReview),
        (postprocess_review resp now).toOption = some rev →
        rev.dimensions = resp.dimensions ∧
        (dimScoresOf rev.dimensions).all scoreInRange = true) ∧
    (∀ (resp : LLMResponse) (now : ℚ),
        (dimScoresOf resp.dimensions).all scoreInRange = false →
        (postprocess_review resp now).toOption = none) := by
  constructor
  · intro resp now rev h
    rw [postprocess_toOption_some] at h
    obtain ⟨hall, -, rfl⟩ := h
    exact ⟨rfl, hall⟩
  · intro resp now hfail
    cases h : (postprocess_review resp now).toOption with
    | none => rfl
    | some rev =>
      rw [postprocess_toOption_some] at h
      rw [h.1] at hfail
      cases hfail

/-- Claim C5, counterexample to the claim as stated: a backend response
with `financial: 1.5` (outside `[0,1]`) produces no review at all — the
pydantic constraints reject it instead of clamping it. -/
theorem C5_counterexample :
    (postprocess_review respBad 0).toOption = none ∧
    respBad.dimensions.financial.score = decLit 15 1 ∧ (1 : ℚ) < decLit 15 1 := by decide

/-- Claim C5, witness: the mock response passes through unclamped and
in range; the out-of-range response is rejected. -/
theorem C5_witness :
    (mockReview0.dimensions = (mock_response (("Metal-Can Co").data)).dimensions ∧
      (dimScoresOf mockReview0.dimensions).all scoreInRange = true) ∧
    (postprocess_review respBad 0).toOption = none :=
  ⟨C5_theorem.1 (mock_response (("Metal-Can Co").data)) 0 mockReview0 (by decide),
   C5_theorem.2 respBad 0 (by decide)⟩

/-- Claim C9: evaluating the route at its failure modes.  For a supplier
with no risk profile the handler raises the 404 `HTTPException` inside the
`try` block, the blanket `except Exception` catches it, and the caller
receives HTTP 500 with detail
`"Error fetching risk profile: 404: No risk profile found for supplier
SUP-1"` — not the intended 404.  A store failure yields 500, and success
yields the 200 body. -/
theorem C9_theorem :
    get_supplier_risk (("SUP-1").data) (.ok none) =
      .inl (.http 500
        (("Error fetching risk profile: 404: No risk profile found for supplier SUP-1").data)) ∧
    get_supplier_risk (("SUP-1").data) (.error (("db down").data)) =
      .inl (.http 500 (("Error fetching risk profile: db down").data)) ∧
    get_supplier_risk (("SUP-1").data) (.ok (some (("\x7b\x7d").data))) =
      .inr (("\x7b\x7d").data) := by decide

/-- Helper: `"mock_hash"` is not the SHA-256 evidence hash of the concrete
bundle (evaluated digest). -/
theorem mock_hash_ne_hash0 :
    ("mock_hash").data ≠ compute_evidence_hash (get_context_bundle core0 [docA, docB] []) := by
  decide

/-- Claim C10: every review produced by `_postprocess_review` carries the
constant string `"mock_hash"` in its `evidence_hash` field; a cache write
performed by `review_supplier` uses the key built from the real SHA-256
evidence hash while storing a review whose recorded hash is `"mock_hash"`;
and `"mock_hash"` differs from the SHA-256 hash of a concrete bundle. -/
theorem except_toOption_some {α : Type} (x : Except Str α) (r : α) :
    x.toOption = some r ↔ x = .ok r := by
  cases x <;> simp [Except.toOption]

/-- Helper: an uncached `review_supplier` call whose post-processing
yields `r` returns `r` and writes the cache under the SHA-256-keyed name. -/
theorem review_supplier_uncached_eq (sid : Str) (core : SupplierCore)
    (docs : List InternalDoc) (news : List NewsItem) (now : ℚ) (r : RiskReview)
    (h : postprocess_review
        (mock_response (get_context_bundle core docs news).supplier_core.name) now = .ok r) :
    review_supplier sid core docs news none now =
      .ok (r, some (reviewCacheKey sid
        (compute_evidence_hash (get_context_bundle core docs news)), r)) := by
  have e1 : review_supplier sid core docs news none now =
      finishReview sid (compute_evidence_hash (get_context_bundle core docs news))
        (postprocess_review
          (mock_response (get_context_bundle core docs news).supplier_core.name) now) := rfl
  rw [e1, h]
  rfl

/-- Helper: every produced review records the constant `"mock_hash"`. -/
theorem postprocess_hash_const (resp : LLMResponse) (now : ℚ) (rev : RiskReview)
    (h : (postprocess_review resp now).toOption = some rev) :
    rev.evidence_hash = ("mock_hash").data := by
  rw [postprocess_toOption_some] at h
  obtain ⟨-, -, rfl⟩ := h
  rfl

/-- Claim C10: every review produced by `_postprocess_review` carries the
constant string `"mock_hash"` in its `evidence_hash` field; an uncached
`review_supplier` call whose post-processing yields review `r` performs
exactly the cache write under the key built from the real SHA-256 evidence
hash, storing `r` — whose recorded hash is `"mock_hash"`; and
`"mock_hash"` differs from the SHA-256 hash of a concrete bundle. -/
theorem C10_theorem :
    (∀ (resp : LLMResponse) (now : ℚ) (rev : RiskReview),
        (postprocess_review resp now).toOption = some rev →
        rev.evidence_hash = ("mock_hash").data) ∧
    (∀ (sid : Str) (core : SupplierCore) (docs : List InternalDoc)
        (news : List NewsItem) (now : ℚ) (r : RiskReview),
        (postprocess_review
            (mock_response (get_context_bundle core docs news).supplier_core.name) now).toOption =
          some r →
        review_supplier sid core docs news none now =
          .ok (r, some (reviewCacheKey sid
            (compute_evidence_hash (get_context_bundle core docs news)), r)) ∧
        r.evidence_hash = ("mock_hash").data) ∧
    ("mock_hash").data ≠ compute_evidence_hash (get_context_bundle core0 [docA, docB] []) :=
  ⟨fun resp now rev h => postprocess_hash_const resp now rev h,
   fun sid core docs news now r h0 =>
     ⟨review_supplier_uncached_eq sid core docs news now r
        ((except_toOption_some _ _).mp h0),
      postprocess_hash_const _ now r h0⟩,
   mock_hash_ne_hash0⟩

/-- Claim C10, witness: the mock review records `"mock_hash"`, and the
concrete uncached call for supplier `S1` writes the cache under the
SHA-256 key while the stored review records the constant. -/
theorem C10_witness :
    mockReview0.evidence_hash = ("mock_hash").data ∧
    (review_supplier (("S1").data) core0 [docA, docB] [] none 0 =
        .ok (acmeReview0, some (reviewCacheKey (("S1").data)
          (compute_evidence_hash (get_context_bundle core0 [docA, docB] [])), acmeReview0)) ∧
      acmeReview0.evidence_hash = ("mock_hash").data) :=
  ⟨C10_theorem.1 (mock_response (("Metal-Can Co").data)) 0 mockReview0 (by decide),
   C10_theorem.2.1 (("S1").data) core0 [docA, docB] [] 0 acmeReview0 (by decide)⟩

/-! ## Claim C1: the evidence hash -/

/-- Helper: cancel a shared prefix and suffix of list appends. -/
theorem append_mid_cancel {X Y u v : Str} (h : X ++ (u ++ Y) = X ++ (v ++ Y)) : u = v :=
  List.append_cancel_right (List.append_cancel_left h)

/-- Helper: internal evidence lines of a split list. -/
theorem internalLines_append (start : Nat) (pre suf : List InternalDoc) (d : InternalDoc) :
    internalLines start (pre ++ d :: suf) =
      internalLines start pre ++
        internalLine (start + pre.length) d :: internalLines (start + pre.length + 1) suf := by
  induction pre generalizing start with
  | nil => simp [internalLines]
  | cons p ps ih =>
    have harith : start + 1 + ps.length = start + (ps.length + 1) := by omega
    show internalLine start p :: internalLines (start + 1) (ps ++ d :: suf) =
      (internalLine start p :: internalLines (start + 1) ps) ++
        internalLine (start + (ps.length + 1)) d ::
          internalLines (start + (ps.length + 1) + 1) suf
    rw [ih (start + 1), harith]
    simp [List.cons_append]

/-- Helper: news evidence lines of a split list. -/
theorem newsLines_append (start : Nat) (pre suf : List NewsItem) (a : NewsItem) :
    newsLines start (pre ++ a :: suf) =
      newsLines start pre ++
        newsLine (start + pre.length) a :: newsLines (start + pre.length + 1) suf := by
  induction pre generalizing start with
  | nil => simp [newsLines]
  | cons p ps ih =>
    have harith : start + 1 + ps.length = start + (ps.length + 1) := by omega
    show newsLine start p :: newsLines (start + 1) (ps ++ a :: suf) =
      (newsLine start p :: newsLines (start + 1) ps) ++
        newsLine (start + (ps.length + 1)) a ::
          newsLines (start + (ps.length + 1) + 1) suf
    rw [ih (start + 1), harith]
    simp [List.cons_append]

/-- Helper: a newline-join exposes any chosen element between fixed
flanks. -/
theorem joinNL_extract (P S : List Str) :
    ∃ X Y : Str, ∀ x : Str, joinNL (P ++ x :: S) = X ++ (x ++ Y) := by
  induction P with
  | nil =>
    cases S with
    | nil => exact ⟨[], [], fun x => by simp [joinNL]⟩
    | cons s ss => exact ⟨[], '\n' :: joinNL (s :: ss), fun x => by simp [joinNL]⟩
  | cons p ps ih =>
    obtain ⟨X, Y, hXY⟩ := ih
    refine ⟨p ++ '\n' :: X, Y, fun x => ?_⟩
    have hcons : joinNL ((p :: ps) ++ x :: S) = p ++ '\n' :: joinNL (ps ++ x :: S) := by
      cases ps <;> simp [joinNL]
    rw [hcons, hXY x]
    simp [List.cons_append, List.append_assoc]

/-- Helper: changing a single internal document's content (same type and
timestamp, all other items fixed) changes the formatted evidence text. -/
theorem evidenceText_internal_content
    (pre suf : List InternalDoc) (news : List NewsItem) (d d' : InternalDoc)
    (htype : d'.type = d.type) (hts : d'.timestamp = d.timestamp)
    (hne : d.content ≠ d'.content) :
    evidenceText (pre ++ d :: suf) news ≠ evidenceText (pre ++ d' :: suf) news := by
  intro he
  apply hne
  unfold evidenceText at he
  rw [internalLines_append, internalLines_append] at he
  obtain ⟨X, Y, hXY⟩ := joinNL_extract (internalLines 1 pre)
      (internalLines (1 + pre.length + 1) suf)
  rw [hXY, hXY] at he
  have hlen : (pre ++ d :: suf).length = (pre ++ d' :: suf).length := by simp
  rw [hlen] at he
  unfold internalLine at he
  rw [htype, hts] at he
  simp only [List.append_assoc, List.cons_append, List.nil_append] at he
  simp only [List.cons.injEq, true_and] at he
  replace he := List.append_cancel_left he
  simp only [List.cons.injEq, true_and] at he
  replace he := List.append_cancel_left he
  simp only [List.cons.injEq, true_and] at he
  replace he := List.append_cancel_left he
  simp only [List.cons.injEq, true_and] at he
  replace he := List.append_cancel_left he
  simp only [List.cons.injEq, true_and] at he
  exact List.append_cancel_right he

/-- Helper: changing a single news item's content (same title and
published timestamp, all other items fixed) changes the formatted
evidence text. -/
theorem evidenceText_news_content
    (docs : List InternalDoc) (pre suf : List NewsItem) (a a' : NewsItem)
    (htitle : a'.title = a.title) (hpub : a'.published = a.published)
    (hne : a.content ≠ a'.content) :
    evidenceText docs (pre ++ a :: suf) ≠ evidenceText docs (pre ++ a' :: suf) := by
  intro he
  apply hne
  unfold evidenceText at he
  rw [newsLines_append, newsLines_append] at he
  obtain ⟨X, Y, hXY⟩ := joinNL_extract (newsLines (docs.length + 1) pre)
      (newsLines (docs.length + 1 + pre.length + 1) suf)
  rw [hXY, hXY] at he
  unfold newsLine at he
  rw [htitle, hpub] at he
  simp only [List.append_assoc, List.cons_append, List.nil_append] at he
  simp only [List.cons.injEq, true_and] at he
  replace he := List.append_cancel_left he
  simp only [List.cons.injEq, true_and] at he
  replace he := List.append_cancel_left he
  simp only [List.cons.injEq, true_and] at he
  replace he := List.append_cancel_left he
  simp only [List.cons.injEq, true_and] at he
  replace he := List.append_cancel_left he
  simp only [List.cons.injEq, true_and] at he
  replace he := List.append_cancel_left he
  simp only [List.cons.injEq, true_and] at he
  exact List.append_cancel_right he

/-- Helper: swapping the two internal documents of the concrete bundle
changes the SHA-256 evidence hash (evaluated digests). -/
theorem hash_order_sensitive :
    compute_evidence_hash (get_context_bundle core0 [docA, docB] []) ≠
      compute_evidence_hash (get_context_bundle core0 [docB, docA] []) := by
  decide

/-- Helper: changing one document's content changes the SHA-256 evidence
hash of the concrete bundle (evaluated digests). -/
theorem hash_content_sensitive :
    compute_evidence_hash (get_context_bundle core0 [docA, docB] []) ≠
      compute_evidence_hash (get_context_bundle core0 [docA, docBc] []) := by
  decide

/-- Claim C1 (amended): the evidence hash is a deterministic function of
the serialized context — bundles with the same serialization hash
identically; changing a single item's content (internal or external,
everything else fixed) changes the formatted evidence text that is
serialized and hashed, and on the tested bundle changes the hash; the
hash is not invariant under reordering (shown by the counterexample). -/
theorem C1_theorem :
    (∀ c1 c2 : PContext, serializeContext c1 = serializeContext c2 →
        compute_evidence_hash c1 = compute_evidence_hash c2) ∧
    (∀ (pre suf : List InternalDoc) (news : List NewsItem) (d d' : InternalDoc),
        d'.type = d.type → d'.timestamp = d.timestamp → d.content ≠ d'.content →
        evidenceText (pre ++ d :: suf) news ≠ evidenceText (pre ++ d' :: suf) news) ∧
    (∀ (docs : List InternalDoc) (pre suf : List NewsItem) (a a' : NewsItem),
        a'.title = a.title → a'.published = a.published → a.content ≠ a'.content →
        evidenceText docs (pre ++ a :: suf) ≠ evidenceText docs (pre ++ a' :: suf)) ∧
    compute_evidence_hash (get_context_bundle core0 [docA, docB] []) ≠
      compute_evidence_hash (get_context_bundle core0 [docA, docBc] []) :=
  ⟨fun c1 c2 h => by unfold compute_evidence_hash; rw [h],
   fun pre suf news d d' h1 h2 h3 => evidenceText_internal_content pre suf news d d' h1 h2 h3,
   fun docs pre suf a a' h1 h2 h3 => evidenceText_news_content docs pre suf a a' h1 h2 h3,
   hash_content_sensitive⟩

/-- Claim C1, counterexample to the claim as stated: the two internal
documents form the same multiset in either order, yet the evidence hash
differs — the hash depends on retrieval order, because citation labels
and the serialized evidence text follow list order. -/
theorem C1_counterexample :
    [docA, docB].Perm [docB, docA] ∧
    compute_evidence_hash (get_context_bundle core0 [docA, docB] []) ≠
      compute_evidence_hash (get_context_bundle core0 [docB, docA] []) :=
  ⟨List.Perm.swap docB docA [], hash_order_sensitive⟩

/-- Claim C1, witness: the content-sensitivity parts instantiated at
concrete documents, and determinism at the concrete serialization. -/
theorem C1_witness :
    evidenceText [docB] [] ≠ evidenceText [docBc] [] ∧
    evidenceText [] [newsA] ≠ evidenceText [] [newsAc] ∧
    compute_evidence_hash (get_context_bundle core0 [] []) =
      compute_evidence_hash (get_context_bundle core0 [] []) :=
  ⟨C1_theorem.2.1 [] [] [] docB docBc rfl rfl (by decide),
   C1_theorem.2.2.1 [] [] [] newsA newsAc rfl rfl (by decide),
   C1_theorem.1 (get_context_bundle core0 [] []) (get_context_bundle core0 [] []) rfl⟩

/-! ## Claim C7: the per-item rule-based score -/

/-- Helper: on `[-1, 1]`, the first-match tone loop computes the spec's
piecewise tone weight. -/
theorem toneBucketDelta_eq (tone : ℚ) (h1 : -1 ≤ tone) (h2 : tone ≤ 1) :
    toneBucketDelta tone = toneWeightSpec tone := by
  have e1 : decLit (-1) 0 = -1 := by decide
  have e2 : decLit 1 0 = 1 := by decide
  have h1u : decLit (-1) 0 ≤ tone := by rw [e1]; exact h1
  have h2u : tone ≤ decLit 1 0 := by rw [e2]; exact h2
  simp only [toneBucketDelta, toneWEIGHTS, toneBucketGo, toneWeightSpec]
  rcases le_or_lt tone (decLit (-5) 1) with hA | hA
  · rw [if_pos ⟨h1u, hA⟩, if_pos hA]
    decide
  · rw [if_neg (fun hc => absurd hc.2 (not_le.mpr hA)), if_neg (not_le.mpr hA)]
    rcases le_or_lt tone (decLit (-1) 1) with hB | hB
    · rw [if_pos ⟨hA.le, hB⟩, if_pos hB]
      decide
    · rw [if_neg (fun hc => absurd hc.2 (not_le.mpr hB)), if_neg (not_le.mpr hB)]
      rcases le_or_lt tone (decLit 1 1) with hC | hC
      · rw [if_pos ⟨hB.le, hC⟩, if_pos hC]
        decide
      · rw [if_neg (fun hc => absurd hc.2 (not_le.mpr hC)), if_neg (not_le.mpr hC)]
        rcases le_or_lt tone (decLit 5 1) with hD | hD
        · rw [if_pos ⟨hC.le, hD⟩, if_pos hD]
          decide
        · rw [if_neg (fun hc => absurd hc.2 (not_le.mpr hD)), if_neg (not_le.mpr hD),
            if_pos ⟨hD.le, h2u⟩]
          decide

/-- Helper: for a nonnegative age, the first-match recency loop finds the
spec's piecewise recency weight. -/
theorem recencyFactor_eq (h : ℚ) (h0 : 0 ≤ h) : recencyFactor h = some (recencyWeightSpec h) := by
  have e0 : decLit 0 0 = 0 := by decide
  have e24 : decLit 24 0 = 24 := by decide
  have e168 : decLit 168 0 = 168 := by decide
  have h0u : decLit 0 0 ≤ h := by rw [e0]; exact h0
  simp only [recencyFactor, recencyWEIGHTS, recencyGo, recencyWeightSpec]
  rcases lt_or_le h 24 with hA | hA
  · have hA' : h < decLit 24 0 := by rw [e24]; exact hA
    rw [if_pos h0u, if_pos hA', if_pos hA]
    decide
  · have hA' : ¬ h < decLit 24 0 := by rw [e24]; exact not_lt.mpr hA
    have h24 : decLit 24 0 ≤ h := by rw [e24]; exact hA
    rw [if_pos h0u, if_neg hA', if_pos h24, if_neg (not_lt.mpr hA)]
    rcases lt_or_le h 168 with hB | hB
    · have hB' : h < decLit 168 0 := by rw [e168]; exact hB
      rw [if_pos hB', if_pos hB]
      decide
    · have hB' : ¬ h < decLit 168 0 := by rw [e168]; exact not_lt.mpr hB
      have h168 : decLit 168 0 ≤ h := by rw [e168]; exact hB
      rw [if_neg hB', if_pos h168, if_neg (not_lt.mpr hB)]

/-- Helper: the loop body's score is the product of the spec's tone and
recency weights. -/
theorem itemScoreVal_eq (tone h : ℚ) (h1 : -1 ≤ tone) (h2 : tone ≤ 1) (h0 : 0 ≤ h) :
    itemScoreVal tone h = toneWeightSpec tone * recencyWeightSpec h := by
  unfold itemScoreVal
  rw [toneBucketDelta_eq tone h1 h2, recencyFactor_eq h h0]
  show fmul (fadd 0 (toneWeightSpec tone)) (recencyWeightSpec h) =
    toneWeightSpec tone * recencyWeightSpec h
  unfold toneWeightSpec recencyWeightSpec
  split_ifs <;> rw [← qmul_eq] <;> decide

/-- Claim C7: the per-item score of the rule-based scorer equals
tone weight times recency weight (tone weight `2.0` on `[-1,-0.5]`, `1.0`
on `(-0.5,-0.1]`, `0.0` on `(-0.1,0.1]`, `-0.5` on `(0.1,0.5]`, `-1.0`
on `(0.5,1]`, tone defaulting to `-1.0` when absent; recency weight `1.0`
under 24 hours, `0.5` on `[24,168)`, `0.1` at or beyond) for parsable
aware timestamps and nonnegative age — also when `published` is absent
(age `0`); in particular tone `-0.8` at age 10 hours scores `2.0`. -/
theorem C7_theorem :
    (∀ (now : ℚ) (item : NewsDoc) (p : Str) (t : Int),
        item.metadata.published = some p →
        fromisoformat (pyreplaceZ p) = some (.aware t) →
        -1 ≤ item.metadata.tone.getD (-1) → item.metadata.tone.getD (-1) ≤ 1 →
        0 ≤ qdivNat (qsub now ((t : Int) : ℚ)) 3600 →
        itemScore now item = .ok (toneWeightSpec (item.metadata.tone.getD (-1)) *
          recencyWeightSpec (qdivNat (qsub now ((t : Int) : ℚ)) 3600))) ∧
    (∀ (now : ℚ) (item : NewsDoc),
        item.metadata.published = none →
        -1 ≤ item.metadata.tone.getD (-1) → item.metadata.tone.getD (-1) ≤ 1 →
        itemScore now item = .ok (toneWeightSpec (item.metadata.tone.getD (-1)) *
          recencyWeightSpec (qdivNat (qsub now now) 3600))) ∧
    (itemScore now10 itemEx).toOption = some 2 := by
  refine ⟨?_, ?_, by decide⟩
  · intro now item p t hpub hparse ht1 ht2 hage
    simp only [itemScore, hpub, hparse]
    rw [itemScoreVal_eq _ _ ht1 ht2 hage]
  · intro now item hpub ht1 ht2
    have hzero : qdivNat (qsub now now) 3600 = 0 := by
      rw [qsub_eq, sub_self, qdivNat_eq 0 3600 (by norm_num), zero_div]
    simp only [itemScore, hpub]
    rw [itemScoreVal_eq _ _ ht1 ht2 (by rw [hzero])]

/-- Claim C7, witness: the aware-timestamp part instantiated at the
example item (tone `-0.8`, age 10 hours). -/
theorem C7_witness :
    itemScore now10 itemEx = .ok (toneWeightSpec (itemEx.metadata.tone.getD (-1)) *
      recencyWeightSpec (qdivNat (qsub now10 ((1752105600 : Int) : ℚ)) 3600)) :=
  C7_theorem.1 now10 itemEx (("2025-07-10T00:00:00Z").data) 1752105600 rfl (by decide)
    (by decide) (by decide) (by decide)

/-! ## Claim C8: top-item selection -/

/-- Helper: a max-fold is at least its seed. -/
theorem le_foldl_max (l : List ℚ) (m : ℚ) : m ≤ l.foldl max m := by
  induction l generalizing m with
  | nil => exact le_refl m
  | cons a l ih => exact le_trans (le_max_left m a) (ih (max m a))

/-- Helper: a max-fold is its seed or an element of the list. -/
theorem foldl_max_mem (l : List ℚ) (m : ℚ) : l.foldl max m = m ∨ l.foldl max m ∈ l := by
  induction l generalizing m with
  | nil => exact Or.inl rfl
  | cons a l ih =>
    rcases ih (max m a) with h | h
    · rcases max_choice m a with hm | hm
      · refine Or.inl ?_
        show List.foldl max (max m a) l = m
        rw [h, hm]
      · refine Or.inr ?_
        show List.foldl max (max m a) l ∈ a :: l
        rw [h, hm]
        exact List.mem_cons_self a l
    · exact Or.inr (List.mem_cons_of_mem a h)

/-- Helper: the strict-maximum fold computes the overall maximum and the
snippet of the first item attaining it (when some item beats the seed). -/
theorem specFold_char (now : ℚ) (items : List NewsDoc) :
    ∀ (m : ℚ) (t : Str),
      specFold now items m t =
        if m < (itemScores now items).foldl max m then
          bestAt now items ((itemScores now items).foldl max m) t
        else (m, t) := by
  induction items with
  | nil => intro m t; simp [specFold, itemScores, List.foldl]
  | cons i rest ih =>
    intro m t
    have hscons : itemScores now (i :: rest) = itemScoreD now i :: itemScores now rest := rfl
    by_cases hsm : itemScoreD now i > m
    · have hmax : max m (itemScoreD now i) = itemScoreD now i := max_eq_right hsm.le
      have hfold : (itemScores now (i :: rest)).foldl max m =
          (itemScores now rest).foldl max (itemScoreD now i) := by
        rw [hscons, List.foldl_cons, hmax]
      have hM : itemScoreD now i ≤ (itemScores now rest).foldl max (itemScoreD now i) :=
        le_foldl_max _ _
      show (if itemScoreD now i > m then
              specFold now rest (itemScoreD now i) (i.content.take 500)
            else specFold now rest m t) = _
      rw [if_pos hsm, ih, hfold, if_pos (lt_of_lt_of_le hsm hM)]
      by_cases hs : itemScoreD now i < (itemScores now rest).foldl max (itemScoreD now i)
      · rw [if_pos hs]
        have hne : decide (itemScoreD now i =
            (itemScores now rest).foldl max (itemScoreD now i)) = false :=
          decide_eq_false (ne_of_lt hs)
        have hmem : (itemScores now rest).foldl max (itemScoreD now i) ∈ itemScores now rest := by
          rcases foldl_max_mem (itemScores now rest) (itemScoreD now i) with h | h
          · exact absurd h.symm (ne_of_lt hs)
          · exact h
        obtain ⟨j, hjmem, hj⟩ := List.mem_map.mp hmem
        unfold bestAt
        rw [show (i :: rest).find? (fun x => decide (itemScoreD now x =
              (itemScores now rest).foldl max (itemScoreD now i))) =
            rest.find? (fun x => decide (itemScoreD now x =
              (itemScores now rest).foldl max (itemScoreD now i))) from by
          simp [List.find?, hne]]
        cases hf : rest.find? (fun x => decide (itemScoreD now x =
            (itemScores now rest).foldl max (itemScoreD now i))) with
        | some x => rfl
        | none =>
          exfalso
          have := List.find?_eq_none.mp hf j hjmem
          rw [hj] at this
          simp at this
      · have hFs : (itemScores now rest).foldl max (itemScoreD now i) = itemScoreD now i :=
          le_antisymm (not_lt.mp hs) hM
        rw [if_neg hs]
        unfold bestAt
        have hpred : decide (itemScoreD now i =
            (itemScores now rest).foldl max (itemScoreD now i)) = true :=
          decide_eq_true hFs.symm
        rw [show (i :: rest).find? (fun x => decide (itemScoreD now x =
              (itemScores now rest).foldl max (itemScoreD now i))) = some i from by
          simp [List.find?, hpred]]
        rw [hFs]
    · have hmax : max m (itemScoreD now i) = m := max_eq_left (not_lt.mp hsm)
      have hfold : (itemScores now (i :: rest)).foldl max m =
          (itemScores now rest).foldl max m := by
        rw [hscons, List.foldl_cons, hmax]
      show (if itemScoreD now i > m then
              specFold now rest (itemScoreD now i) (i.content.take 500)
            else specFold now rest m t) = _
      rw [if_neg hsm, ih, hfold]
      by_cases hm : m < (itemScores now rest).foldl max m
      · rw [if_pos hm, if_pos hm]
        have hlt : itemScoreD now i < (itemScores now rest).foldl max m :=
          lt_of_le_of_lt (not_lt.mp hsm) hm
        have hne : decide (itemScoreD now i = (itemScores now rest).foldl max m) = false :=
          decide_eq_false (ne_of_lt hlt)
        unfold bestAt
        rw [show (i :: rest).find? (fun x => decide (itemScoreD now x =
              (itemScores now rest).foldl max m)) =
            rest.find? (fun x => decide (itemScoreD now x =
              (itemScores now rest).foldl max m)) from by
          simp [List.find?, hne]]
      · rw [if_neg hm, if_neg hm]

/-- Helper: under per-item success, the loop returns exactly the
error-free fold. -/
theorem computeGo_ok (now : ℚ) (items : List NewsDoc) :
    ∀ (m : ℚ) (t : Str), (∀ i ∈ items, exceptOk (itemScore now i) = true) →
      computeGo now items m t = .ok (specFold now items m t) := by
  induction items with
  | nil => intro m t _; rfl
  | cons i rest ih =>
    intro m t hall
    have hi := hall i (List.mem_cons_self i rest)
    have hall' : ∀ j ∈ rest, exceptOk (itemScore now j) = true :=
      fun j hj => hall j (List.mem_cons_of_mem i hj)
    cases hitem : itemScore now i with
    | error e =>
      rw [hitem] at hi
      simp [exceptOk] at hi
    | ok s =>
      have hD : itemScoreD now i = s := by unfold itemScoreD; rw [hitem]; rfl
      show (match itemScore now i with
            | Except.error e => Except.error e
            | Except.ok score =>
              if score > m then computeGo now rest score (i.content.take 500)
              else computeGo now rest m t) = _
      rw [hitem]
      show (if s > m then computeGo now rest s (i.content.take 500)
            else computeGo now rest m t) = _
      have hspec : specFold now (i :: rest) m t =
          if s > m then specFold now rest s (i.content.take 500)
          else specFold now rest m t := by
        show (if itemScoreD now i > m then
                specFold now rest (itemScoreD now i) (i.content.take 500)
              else specFold now rest m t) = _
        rw [hD]
      rw [hspec]
      by_cases hs : s > m
      · rw [if_pos hs, if_pos hs, ih _ _ hall']
      · rw [if_neg hs, if_neg hs, ih _ _ hall']

/-- Claim C8 (amended): when every item scores without error,
`compute_risk_score` returns the maximum of `0.0` and the per-item
scores, with the snippet of the first item attaining that maximum when it
is strictly positive and the empty snippet otherwise; in particular the
empty item set yields `(0.0, "")`.  (An item set whose best score is not
strictly positive also yields the empty snippet — the counterexample.) -/
theorem C8_theorem :
    (∀ (now : ℚ) (items : List NewsDoc),
        (∀ i ∈ items, exceptOk (itemScore now i) = true) →
        compute_risk_score now items = .ok (specTop now items)) ∧
    (∀ now : ℚ, compute_risk_score now [] = .ok (0, [])) := by
  constructor
  · intro now items hall
    cases items with
    | nil => simp [compute_risk_score, specTop, itemScores, bestAt, List.foldl]
    | cons i rest =>
      rw [compute_risk_score]
      rw [if_neg (by simp)]
      rw [computeGo_ok now (i :: rest) 0 [] hall, specFold_char]
      unfold specTop
      by_cases h0 : 0 < (itemScores now (i :: rest)).foldl max 0
      · rw [if_pos h0, if_pos h0]
      · rw [if_neg h0, if_neg h0]
        have : (itemScores now (i :: rest)).foldl max 0 = 0 :=
          le_antisymm (not_lt.mp h0) (le_foldl_max _ _)
        rw [this]
  · intro now
    rfl

/-- Claim C8, counterexample to the claim as stated: a single item whose
per-item score is `-0.5` (positive tone, fresh) is the strictly
highest-scoring item, yet the result is `(0.0, "")` — the item is not
selected, because the running maximum starts at `0.0`. -/
theorem C8_counterexample :
    (compute_risk_score ((t0 : ℚ)) [itemPos]).toOption = some (0, []) ∧
    (itemScore ((t0 : ℚ)) itemPos).toOption = some (-(mkRat 1 2)) ∧
    itemPos.content ≠ [] ∧ (-(mkRat 1 2) : ℚ) < 0 := by decide

/-- Claim C8, witness: the characterization instantiated at the example
item. -/
theorem C8_witness :
    compute_risk_score now10 [itemEx] = .ok (specTop now10 [itemEx]) :=
  C8_theorem.1 now10 [itemEx] (by decide)

/-! ## Claim C6: error behavior of the rule-based scorer -/

/-- Helper: the fetch-step date filter never errors when no parsable
timestamp is offset-naive (missing and unparsable ones are skipped). -/
theorem fetchFilter_ok (now : ℚ) (docs : List NewsDoc)
    (hnn : ∀ d ∈ docs, parsesNaive d = false) :
    exceptOk (fetchFilter now docs) = true := by
  induction docs with
  | nil => rfl
  | cons d rest ih =>
    have hd := hnn d (List.mem_cons_self d rest)
    have hrest : ∀ x ∈ rest, parsesNaive x = false :=
      fun x hx => hnn x (List.mem_cons_of_mem d hx)
    have ih' := ih hrest
    cases hp : d.metadata.published with
    | none =>
      show exceptOk (fetchFilter now (d :: rest)) = true
      simp only [fetchFilter, hp]
      exact ih'
    | some p =>
      cases hf : fromisoformat (pyreplaceZ p) with
      | none =>
        show exceptOk (fetchFilter now (d :: rest)) = true
        simp only [fetchFilter, hp, hf]
        exact ih'
      | some dt =>
        cases dt with
        | naive s =>
          exfalso
          simp only [parsesNaive, hp, hf] at hd
          exact Bool.noConfusion hd
        | aware tt =>
          show exceptOk (fetchFilter now (d :: rest)) = true
          simp only [fetchFilter, hp, hf]
          by_cases hcond : qsub now 86400 ≤ ((tt : Int) : ℚ) ∧ ((tt : Int) : ℚ) ≤ now
          · rw [if_pos hcond]
            cases hres : fetchFilter now rest with
            | error e => rw [hres] at ih'; simp [exceptOk] at ih'
            | ok kept => rfl
          · rw [if_neg hcond]
            exact ih'

/-- Helper: every item the fetch filter keeps has a parsable, offset-aware
timestamp, so scoring it (at any clock) succeeds. -/
theorem fetchFilter_sound (now now' : ℚ) (docs : List NewsDoc) :
    ∀ kept, fetchFilter now docs = .ok kept →
      ∀ i ∈ kept, exceptOk (itemScore now' i) = true := by
  induction docs with
  | nil =>
    intro kept h i hi
    simp only [fetchFilter, Except.ok.injEq] at h
    subst h
    cases hi
  | cons d rest ih =>
    intro kept h i hi
    cases hp : d.metadata.published with
    | none =>
      simp only [fetchFilter, hp] at h
      exact ih kept h i hi
    | some p =>
      cases hf : fromisoformat (pyreplaceZ p) with
      | none =>
        simp only [fetchFilter, hp, hf] at h
        exact ih kept h i hi
      | some dt =>
        cases dt with
        | naive s =>
          simp only [fetchFilter, hp, hf] at h
          exact Except.noConfusion h
        | aware tt =>
          simp only [fetchFilter, hp, hf] at h
          by_cases hcond : qsub now 86400 ≤ ((tt : Int) : ℚ) ∧ ((tt : Int) : ℚ) ≤ now
          · rw [if_pos hcond] at h
            cases hres : fetchFilter now rest with
            | error e => rw [hres] at h; simp at h
            | ok kept' =>
              rw [hres] at h
              injection h with hk
              subst hk
              rcases List.mem_cons.mp hi with hid | hitail
              · subst hid
                simp only [itemScore, hp, hf]
                rfl
              · exact ih kept' hres i hitail
          · rw [if_neg hcond] at h
            exact ih kept h i hi

/-- Claim C6 (amended): the fetch step's date filter skips items with
missing or unparsable timestamps and returns a result whenever no
parsable timestamp is offset-naive; and the scoring step never errors on
the items the fetch step keeps.  (The scoring step itself does raise on
an unparsable timestamp — the counterexample.) -/
theorem C6_theorem :
    (∀ (now : ℚ) (docs : List NewsDoc),
        (∀ d ∈ docs, parsesNaive d = false) →
        exceptOk (fetchFilter now docs) = true) ∧
    (∀ (now now' : ℚ) (docs kept : List NewsDoc),
        (fetchFilter now docs).toOption = some kept →
        exceptOk (compute_risk_score now' kept) = true) := by
  refine ⟨fun now docs h => fetchFilter_ok now docs h, ?_⟩
  intro now now' docs kept h0
  have h := (except_toOption_some _ _).mp h0
  have hall := fetchFilter_sound now now' docs kept h
  cases kept with
  | nil => rfl
  | cons i rest =>
    rw [compute_risk_score, if_neg (by simp)]
    rw [computeGo_ok now' (i :: rest) 0 [] hall]
    rfl

/-- Claim C6, counterexample to the claim as stated: handed an item whose
`published` string does not parse, `compute_risk_score` raises
(`ValueError` from `datetime.fromisoformat`) instead of skipping the item
and returning a result. -/
theorem C6_counterexample :
    (compute_risk_score 0 [docBadTS]).toOption = none ∧
    docBadTS.metadata.published = some (("not-a-date").data) := by decide

/-- Claim C6, witness: the fetch filter skips the unparsable item and the
scoring step succeeds on the (empty) kept list. -/
theorem C6_witness :
    exceptOk (fetchFilter 0 [docBadTS]) = true ∧
    exceptOk (compute_risk_score 5 []) = true :=
  ⟨C6_theorem.1 0 [docBadTS] (by decide),
   C6_theorem.2 0 5 [docBadTS] [] (by decide)⟩

/-! ## Claim C4: concurrency deduplication -/

/-- Helper: one scheduler step never increases calls-plus-pending. -/
theorem stepFlight_potential (rv : RiskReview) (s : FlightState) (i : Bool) :
    flightPotential (stepFlight rv s i) ≤ flightPotential s := by
  cases i
  · cases h0 : s.task0 <;> cases hc : s.cache <;>
      simp [stepFlight, stepTaskPC, flightPotential, pendingTask, h0, hc]
  · cases h1 : s.task1 <;> cases hc : s.cache <;>
      simp [stepFlight, stepTaskPC, flightPotential, pendingTask, h1, hc] <;> omega

/-- Helper: no schedule increases calls-plus-pending. -/
theorem runFlight_potential (rv : RiskReview) :
    ∀ (sched : List Bool) (s : FlightState),
      flightPotential (runFlight rv s sched) ≤ flightPotential s := by
  intro sched
  induction sched with
  | nil => intro s; exact le_refl _
  | cons i rest ih =>
    intro s
    show flightPotential (runFlight rv (stepFlight rv s i) rest) ≤ flightPotential s
    exact le_trans (ih _) (stepFlight_potential rv s i)

/-- Claim C4 (amended): `review_supplier` has no single-flight structure —
under any interleaving of two same-key calls at most two backend calls
happen (each task calls at most once), and under the fully serial
schedule the second caller hits the cache written by the first: exactly
one backend invocation, the second task finishing with the first task's
review.  (An interleaved schedule reaches two invocations — the
counterexample.) -/
theorem C4_theorem :
    (∀ sched : List Bool, (runFlight mockReview0 initFlight sched).backendCalls ≤ 2) ∧
    (runFlight mockReview0 initFlight [false, false, false, true]).backendCalls = 1 ∧
    (runFlight mockReview0 initFlight [false, false, false, true]).task1 =
      .finished mockReview0 := by
  refine ⟨?_, by decide, by decide⟩
  intro sched
  have h1 : (runFlight mockReview0 initFlight sched).backendCalls ≤
      flightPotential (runFlight mockReview0 initFlight sched) := by
    unfold flightPotential
    omega
  have h2 := runFlight_potential mockReview0 sched initFlight
  have h3 : flightPotential initFlight = 2 := rfl
  omega

/-- Claim C4, counterexample to the claim as stated: with the key
uncached, the interleaving in which both tasks read the cache before
either writes it makes both invoke the assessment backend — two
invocations, not exactly one. -/
theorem C4_counterexample :
    (runFlight mockReview0 initFlight [false, true, false, true]).backendCalls = 2 ∧
    (2 : Nat) ≠ 1 := by decide

end KB